import Mathlib

/-!
Verification development for the bibliographic resolution and incremental
enrichment pipeline of `fetch_news.py` (planetmould repository).

The Python source is shallowly embedded: each Python function is translated
to an executable Lean definition operating on `String` / `List Char`.
Network effects (`requests.get`) are modelled by an explicit oracle
structure `Net` whose fields give, for each external service, the response
the service would return; `time.sleep` calls and outgoing HTTP requests are
recorded in an explicit event trace.  Python exceptions caught by the
source's `try/except` blocks are modelled by the `HttpResult.exn`
constructor; file-system state for the manifest is modelled as an
`Option (List ManEntry)` (`none` = file absent / deleted).
-/

/-- Python truthiness of an optional string (`None` and `""` are falsy). -/
def optTruthy : Option String → Bool
  | none => false
  | some s => !s.data.isEmpty

/-- Python truthiness of a string (`""` is falsy). -/
def strTruthy (s : String) : Bool := !s.data.isEmpty

/-- Python slicing `s[:n]` (by characters, as Python slices by code points). -/
def pyTake (s : String) (n : Nat) : String := String.mk (s.data.take n)

/-- Python `str.lower()` (character-wise; exotic multi-character Unicode
lowercasings are out of scope, the pipeline's data is ASCII). -/
def pyLower (s : String) : String := String.mk (s.data.map Char.toLower)

/-- Lexicographic comparison of character lists by code point. -/
def charListLt : List Char → List Char → Bool
  | [], [] => false
  | [], _ :: _ => true
  | _ :: _, [] => false
  | a :: as, b :: bs => if a < b then true else if b < a then false else charListLt as bs

/-- String comparison, matching Python's `<` on strings (code-point
lexicographic). -/
def strLtB (a b : String) : Bool := charListLt a.data b.data

/-- Does `l` start with the literal `pat`? -/
def startsWithL : List Char → List Char → Bool
  | [], _ => true
  | _ :: _, [] => false
  | p :: ps, c :: cs => p == c && startsWithL ps cs

/-- Does `pat` occur as a contiguous run anywhere in `l`?  Models an
unanchored `re.search` for a literal. -/
def containsL (pat : List Char) : List Char → Bool
  | [] => startsWithL pat []
  | c :: cs => startsWithL pat (c :: cs) || containsL pat (c :: cs).tail

/-- Consume the literal `pat` from the front of `l`; return the remainder. -/
def matchLit : List Char → List Char → Option (List Char)
  | [], l => some l
  | _ :: _, [] => none
  | p :: ps, c :: cs => if p == c then matchLit ps cs else none

/-- Does some suffix of `l` satisfy `f`?  Generic leftmost `re.search` scan. -/
def scanAny (f : List Char → Bool) : List Char → Bool
  | [] => f []
  | c :: cs => f (c :: cs) || scanAny f (c :: cs).tail

/-- Stable insertion into a list: `x` is placed before the first element `y`
with `lt y x = false`.  Helper for `sortBy`. -/
def insertBy {α : Type} (lt : α → α → Bool) (x : α) : List α → List α
  | [] => [x]
  | y :: ys => if lt y x then y :: insertBy lt x ys else x :: y :: ys

/-- Stable sort: models Python's `list.sort` / `sorted` (Timsort is stable;
`lt y x = true` means `y` is strictly ordered before `x`). -/
def sortBy {α : Type} (lt : α → α → Bool) : List α → List α
  | [] => []
  | x :: xs => insertBy lt x (sortBy lt xs)

/-- Join a list of character lists with single spaces, as `' '.join`. -/
def joinSpaceChars : List (List Char) → List Char
  | [] => []
  | [w] => w
  | w :: ws => w ++ ' ' :: joinSpaceChars ws

/-- Drop leading and trailing spaces, as Python `str.strip()` on a string
whose only whitespace characters are spaces. -/
def trimSpaces (l : List Char) : List Char :=
  ((l.dropWhile (fun c => c == ' ')).reverse.dropWhile (fun c => c == ' ')).reverse

/-- Split on runs of spaces, discarding empty pieces, as Python
`str.split()` on a string whose only whitespace characters are spaces. -/
def splitWordsAux : List Char → List Char → List (List Char)
  | [], acc => if acc.isEmpty then [] else [acc.reverse]
  | c :: cs, acc =>
    if c == ' ' then
      if acc.isEmpty then splitWordsAux cs [] else acc.reverse :: splitWordsAux cs []
    else splitWordsAux cs (c :: acc)

/-- Split a character list into its space-separated words. -/
def splitWords (l : List Char) : List (List Char) := splitWordsAux l []

-- ===========================================================================
-- Quality classifier: `is_thin_excerpt` (fetch_news.py lines 379-397)
-- ===========================================================================

/-- Does the first line of `l` contain `volume ` followed by a digit?
Models a `re.search` of `Volume \d+` reachable through `.*` (which cannot
cross a newline) with `re.IGNORECASE`; `l` is already lowercased. -/
def hasVolumeNum (l : List Char) : Bool :=
  scanAny
    (fun s =>
      match matchLit "volume ".data s with
      | some (d :: _) => d.isDigit
      | _ => false)
    (l.takeWhile (fun c => !(c == '\n')))

/-- Does the first line of `l` contain `, volume` or `, ahead`?  Models the
`.*, (Volume|Ahead)` tail of the `^Journal of` pattern, lowercased input. -/
def hasJournalTail (l : List Char) : Bool :=
  scanAny
    (fun s => (matchLit ", volume".data s).isSome || (matchLit ", ahead".data s).isSome)
    (l.takeWhile (fun c => !(c == '\n')))

/-- Does `l` match `, Volume \d+, Issue \d+, Page` anywhere (unanchored,
case-insensitive; `l` is already lowercased)? -/
def hasVolumeIssuePage (l : List Char) : Bool :=
  scanAny
    (fun s =>
      match matchLit ", volume ".data s with
      | some rest1 =>
        let ds1 := rest1.takeWhile Char.isDigit
        if ds1.isEmpty then false
        else
          match matchLit ", issue ".data (rest1.drop ds1.length) with
          | some rest2 =>
            let ds2 := rest2.takeWhile Char.isDigit
            if ds2.isEmpty then false
            else (matchLit ", page".data (rest2.drop ds2.length)).isSome
          | none => false
      | none => false)
    l

/-- Quality classifier `is_thin_excerpt(excerpt)` (fetch_news.py 379-397):
true when the excerpt is empty or shorter than 150 characters, or matches
one of the metadata-only signatures (each Python regex is translated to an
explicit scan; `^` anchors at the start of the string, `$` allows one
trailing newline, matching Python `re` without `re.MULTILINE`). -/
def is_thin_excerpt (excerpt : String) : Bool :=
  if excerpt.data.length < 150 then true
  else
    let low := excerpt.data.map Char.toLower
    startsWithL "publication date:".data low ||
    (startsWithL "source:".data low && hasVolumeNum (low.drop 7)) ||
    startsWithL "author(s):".data low ||
    (startsWithL "journal of ".data low && hasJournalTail (low.drop 11)) ||
    hasVolumeIssuePage low ||
    startsWithL "available online".data low ||
    (low == "graphical abstract".data || low == "graphical abstract\n".data)

-- ===========================================================================
-- Identifier extraction: `extract_doi`, `extract_pii` (lines 153-165)
-- ===========================================================================

/-- Characters excluded by `[^\s"'<>]` in the DOI regex (ASCII whitespace). -/
def doiBodyStop (c : Char) : Bool :=
  c == ' ' || c == '\t' || c == '\n' || c == '\r' || c == '\x0b' || c == '\x0c' ||
  c == '"' || c == '\'' || c == '<' || c == '>'

/-- Attempt the regex `10\.\d{4,9}/[^\s"'<>]+` at the head of `l`; returns
the matched characters.  Greedy `\d{4,9}` followed by the literal `/` can
only succeed on the full digit run (a digit never equals `/`). -/
def doiMatchAt (l : List Char) : Option (List Char) :=
  match matchLit "10.".data l with
  | none => none
  | some rest =>
    let ds := rest.takeWhile Char.isDigit
    if 4 ≤ ds.length && ds.length ≤ 9 then
      match rest.drop ds.length with
      | '/' :: body =>
        let b := body.takeWhile (fun c => !doiBodyStop c)
        if b.isEmpty then none
        else some ("10.".data ++ ds ++ '/' :: b)
      | _ => none
    else none

/-- Leftmost search for the DOI pattern, as `re.search`. -/
def doiSearch : List Char → Option (List Char)
  | [] => none
  | c :: cs =>
    match doiMatchAt (c :: cs) with
    | some m => some m
    | none => doiSearch cs

/-- Python `str.rstrip(' .)')`: drop trailing spaces, dots and closing
parentheses. -/
def rstripDoi (l : List Char) : List Char :=
  (l.reverse.dropWhile (fun c => c == ' ' || c == '.' || c == ')')).reverse

/-- `extract_doi(url)` (fetch_news.py 153-158): first DOI-shaped segment of
the URL, with trailing ` .)` characters stripped; `none` when the URL has
no DOI-shaped segment. -/
def extract_doi (url : String) : Option String :=
  (doiSearch url.data).map (fun m => String.mk (rstripDoi m))

/-- Attempt `/pii/([A-Z0-9]+)` at the head of `l`. -/
def piiMatchAt (l : List Char) : Option String :=
  match matchLit "/pii/".data l with
  | none => none
  | some rest =>
    let g := rest.takeWhile (fun c => ('A' ≤ c && c ≤ 'Z') || c.isDigit)
    if g.isEmpty then none else some (String.mk g)

/-- Leftmost search for the PII pattern. -/
def piiSearch : List Char → Option String
  | [] => none
  | c :: cs =>
    match piiMatchAt (c :: cs) with
    | some m => some m
    | none => piiSearch cs

/-- `extract_pii(url)` (fetch_news.py 160-165). -/
def extract_pii (url : String) : Option String := piiSearch url.data

/-- Case-sensitive substring test, as Python `sub in s`. -/
def containsSub (s sub : String) : Bool := containsL sub.data s.data

-- ===========================================================================
-- Title similarity: `_titles_match` (fetch_news.py 217-233)
-- ===========================================================================

/-- The normalization `norm` inside `_titles_match`: lowercase, delete every
character outside `[a-z0-9 ]`, and strip leading/trailing whitespace.  Note
that interior whitespace runs are NOT collapsed by the source. -/
def normChars (t : String) : List Char :=
  trimSpaces
    ((t.data.map Char.toLower).filter
      (fun c => ('a' ≤ c && c ≤ 'z') || c.isDigit || c == ' '))

/-- `_titles_match(a, b)` (fetch_news.py 217-233): accept when one
normalized title occurs inside the other, or when the word-set overlap
relative to the smaller set exceeds 0.75.  Python's float comparison
`len(wa & wb) / min(len(wa), len(wb)) > 0.75` is modelled exactly by
`4 * |inter| > 3 * min`: 0.75 is a representable float, rounding of `p/q`
is monotone, and for the word-set sizes reachable here (`q < 2^52`) the
nearest float to `p/q` is on the same side of 0.75 as the rational. -/
def titles_match (a b : String) : Bool :=
  let na := normChars a
  let nb := normChars b
  if na.isEmpty || nb.isEmpty then false
  else if containsL na nb || containsL nb na then true
  else
    let wa := (splitWords na).dedup
    let wb := (splitWords nb).dedup
    if wa.isEmpty || wb.isEmpty then false
    else decide (4 * (wa.filter (fun w => w ∈ wb)).length > 3 * min wa.length wb.length)

-- ===========================================================================
-- Network oracle
-- ===========================================================================

/-- Outcome of one `requests.get` call: either a parsed response with an
HTTP status code and the service-specific payload, or `exn` for any raised
exception (timeout, connection error, JSON decode error, ...), which the
source catches with a blanket `except`. -/
inductive HttpResult (α : Type) where
  | ok : Nat → α → HttpResult α
  | exn : HttpResult α
deriving DecidableEq

/-- One CrossRef result item: `candidate.get('title', [''])[0]` and
`candidate.get('DOI', '')`. -/
structure CrItem where
  title0 : String
  doi : String
deriving DecidableEq

/-- Deterministic network oracle: for each external service, the response
it returns for a given request.  `ss`/`oa` payloads are the optional
`abstract` field / `abstract_inverted_index` dict; `epmc` is the list of
result records projected to their `abstractText`; `crossref` the items
list; `elsevier` the optional `prism:doi` field.  `scrape` abstracts
`scrape_abstract_from_page` (fetch_news.py 315-375) at its return value:
an optional extracted abstract for the given page URL (the function is a
pure composition of one HTTP fetch and regex extraction). -/
structure Net where
  ss : String → HttpResult (Option String)
  oa : String → HttpResult (Option (List (String × List Nat)))
  epmc : String → HttpResult (List String)
  crossref : String → HttpResult (List CrItem)
  elsevier : String → HttpResult (Option String)
  scrape : String → Option String

/-- The environment-variable credentials read at the top of
`enrich_abstracts` (`SS2_KEY`, `OPENALEX_KEY`, `ELSEVIER_KEY`);
`none` = unset. -/
structure Keys where
  ss2 : Option String := none
  openalex : Option String := none
  elsevier : Option String := none

-- ===========================================================================
-- Abstract sources (fetch_news.py 235-310) and resolvers (167-215)
-- ===========================================================================

/-- `fetch_abstract_semantic_scholar(doi, api_key)` (fetch_news.py
235-254): on a 200 response, return the abstract only when it is present
and longer than 50 characters; every other outcome (404, other status,
missing/short abstract, exception) yields `None`.  The API key only
changes request headers, never the result logic. -/
def fetch_abstract_semantic_scholar (net : Net) (doi : String) (api_key : Option String) :
    Option String :=
  match net.ss doi with
  | HttpResult.exn => none
  | HttpResult.ok status payload =>
    if status = 200 then
      match payload with
      | some ab => if 50 < ab.data.length then some ab else none
      | none => none
    else none

/-- `reconstruct_abstract(inverted_index)` (fetch_news.py 256-265):
flatten the word/positions dict into (position, word) pairs, stable-sort
by position, join with spaces.  Python dict iteration order is insertion
order, modelled by the list order. -/
def reconstruct_abstract (inv : List (String × List Nat)) : Option String :=
  if inv.isEmpty then none
  else
    let pairs := inv.foldr (fun wp acc => wp.2.map (fun p => (p, wp.1)) ++ acc) []
    let sorted := sortBy (fun y x => decide (y.1 < x.1)) pairs
    some (String.mk (joinSpaceChars (sorted.map (fun pw => pw.2.data))))

/-- `fetch_abstract_openalex(doi, api_key)` (fetch_news.py 267-288): on a
200 response, reconstruct the abstract when the inverted index is present
and non-empty (Python truthiness of the dict); no minimum-length check. -/
def fetch_abstract_openalex (net : Net) (doi : String) (api_key : Option String) :
    Option String :=
  match net.oa doi with
  | HttpResult.exn => none
  | HttpResult.ok status payload =>
    if status = 200 then
      match payload with
      | some inv => if inv.isEmpty then none else reconstruct_abstract inv
      | none => none
    else none

/-- `fetch_abstract_europepmc(doi)` (fetch_news.py 290-310): on a 200
response take the first result's `abstractText` when present and longer
than 50 characters. -/
def fetch_abstract_europepmc (net : Net) (doi : String) : Option String :=
  match net.epmc doi with
  | HttpResult.exn => none
  | HttpResult.ok status results =>
    if status = 200 then
      match results with
      | [] => none
      | ab :: _ => if 50 < ab.data.length then some ab else none
    else none

/-- Does `doi` match `\.s\d{3}$` (a supplementary-material DOI)?  The
match must end at the end of the string, or just before one final
newline, as Python `$` without `re.MULTILINE`. -/
def hasSupplSuffix (doi : String) : Bool :=
  match doi.data.reverse with
  | d3 :: d2 :: d1 :: 's' :: '.' :: _ => d1.isDigit && d2.isDigit && d3.isDigit
  | '\n' :: d3 :: d2 :: d1 :: 's' :: '.' :: _ => d1.isDigit && d2.isDigit && d3.isDigit
  | _ => false

/-- `resolve_title_to_doi(title)` (fetch_news.py 189-215): query CrossRef
with the title; accept the top hit's DOI only when the candidate title
passes `_titles_match` against the stub's title and the DOI is non-empty
and not a supplementary-material DOI. -/
def resolve_title_to_doi (net : Net) (title : String) : Option String :=
  match net.crossref title with
  | HttpResult.exn => none
  | HttpResult.ok status items =>
    if status = 200 then
      match items with
      | [] => none
      | candidate :: _ =>
        let candidate_title := pyLower candidate.title0
        if titles_match (pyLower title) candidate_title then
          if strTruthy candidate.doi && !hasSupplSuffix candidate.doi then
            some candidate.doi
          else none
        else none
    else none

/-- `resolve_pii_to_doi(pii, elsevier_key)` (fetch_news.py 167-187): a
missing (or empty, hence falsy) key short-circuits to `None` without any
network call; otherwise on a 200 response return the `prism:doi` field
when present and truthy. -/
def resolve_pii_to_doi (net : Net) (pii : String) (elsevier_key : Option String) :
    Option String :=
  if !optTruthy elsevier_key then none
  else
    match net.elsevier pii with
    | HttpResult.exn => none
    | HttpResult.ok status payload =>
      if status = 200 then
        match payload with
        | some d => if strTruthy d then some d else none
        | none => none
      else none

-- ===========================================================================
-- Article stubs and the enrichment pipeline (fetch_news.py 399-523)
-- ===========================================================================

/-- One archived article stub, as stored in `mould_news.json`.  The
optional `abstract_source` key (the spec's `enrichmentSource`) is `none`
when absent; `doi` models the optional `doi` key read by the manifest
exporter via `article.get('doi', '')` (absent = `""`). -/
structure Article where
  title : String := ""
  source : String := ""
  excerpt : String := ""
  url : String := ""
  pubDate : String := ""
  category : String := ""
  abstract_source : Option String := none
  doi : String := ""
deriving DecidableEq

/-- External services an enrichment run can call. -/
inductive Src where
  | elsevier | crossref | semantic_scholar | openalex | europepmc | web_scrape
deriving DecidableEq

/-- Trace events of one run: an outgoing external call, or a
`time.sleep(0.3)` delay. -/
inductive Ev where
  | call : Src → Ev
  | sleep : Ev
deriving DecidableEq

/-- The retry-clearing step (fetch_news.py 422-429): an article that is
still thin but carries an `abstract_source` from a previous run has that
provenance popped and its excerpt blanked before the re-attempt. -/
def clearIfRetry (a : Article) : Article :=
  if optTruthy a.abstract_source then { a with abstract_source := none, excerpt := "" } else a

/-- The ScienceDirect step of identifier resolution (fetch_news.py
433-439): for a ScienceDirect URL whose PII can be extracted, resolve it
via the Elsevier API, which issues a call only when the key is set. -/
def resolve_doi_sd (net : Net) (keys : Keys) (url : String) : Option String × List Ev :=
  if containsSub url "sciencedirect.com" then
    match extract_pii url with
    | some pii =>
      (resolve_pii_to_doi net pii keys.elsevier,
       if optTruthy keys.elsevier then [Ev.call Src.elsevier] else [])
    | none => ((none : Option String), ([] : List Ev))
  else ((none : Option String), ([] : List Ev))

/-- Identifier resolution for one stub (fetch_news.py 431-445): direct
DOI extraction from the URL, then PII resolution for ScienceDirect URLs,
then the CrossRef title fallback.  Returns the resolved DOI (if any)
together with the external calls made. -/
def resolve_doi (net : Net) (keys : Keys) (url title : String) :
    Option String × List Ev :=
  if optTruthy (extract_doi url) then (extract_doi url, [])
  else if optTruthy (resolve_doi_sd net keys url).1 then resolve_doi_sd net keys url
  else if strTruthy title then
    (resolve_title_to_doi net title, (resolve_doi_sd net keys url).2 ++ [Ev.call Src.crossref])
  else ((none : Option String), (resolve_doi_sd net keys url).2)

/-- The abstract cascade for a resolved DOI (fetch_news.py 465-479):
Semantic Scholar, then OpenAlex, then Europe PMC, then page scraping, each
later source tried only when the previous result is falsy.  Returns the
abstract (possibly `none`), the provenance label the source would record,
and the calls made. -/
def abstract_cascade (net : Net) (keys : Keys) (doi url : String) :
    Option String × String × List Ev :=
  let a1 := fetch_abstract_semantic_scholar net doi keys.ss2
  if optTruthy a1 then (a1, "semantic_scholar", [Ev.call Src.semantic_scholar])
  else
    let a2 := fetch_abstract_openalex net doi keys.openalex
    if optTruthy a2 then
      (a2, "openalex", [Ev.call Src.semantic_scholar, Ev.call Src.openalex])
    else
      let a3 := fetch_abstract_europepmc net doi
      if optTruthy a3 then
        (a3, "europepmc",
         [Ev.call Src.semantic_scholar, Ev.call Src.openalex, Ev.call Src.europepmc])
      else
        (net.scrape url, "web_scrape",
         [Ev.call Src.semantic_scholar, Ev.call Src.openalex, Ev.call Src.europepmc,
          Ev.call Src.web_scrape])

/-- Processing of one already-cleared thin stub (fetch_news.py 431-490):
resolve a DOI; with a DOI run the cascade and assign `excerpt`/
`abstract_source` on success, sleeping 0.3s after the cascade either way;
without a DOI scrape the page directly, sleeping only on success. -/
def enrichThin (net : Net) (keys : Keys) (a : Article) : Article × List Ev :=
  let r := resolve_doi net keys a.url a.title
  if optTruthy r.1 then
    let c := abstract_cascade net keys (r.1.getD "") a.url
    if optTruthy c.1 then
      ({ a with excerpt := pyTake (c.1.getD "") 2000, abstract_source := some c.2.1 },
       r.2 ++ c.2.2 ++ [Ev.sleep])
    else (a, r.2 ++ c.2.2 ++ [Ev.sleep])
  else
    let ab := net.scrape a.url
    if optTruthy ab then
      ({ a with excerpt := pyTake (ab.getD "") 2000, abstract_source := some "web_scrape" },
       r.2 ++ [Ev.call Src.web_scrape, Ev.sleep])
    else (a, r.2 ++ [Ev.call Src.web_scrape])

/-- One iteration of the `enrich_abstracts` loop (fetch_news.py 414-490):
a stub whose current excerpt is not thin is skipped untouched with no
external call; a thin stub is cleared of stale provenance when needed and
then submitted to resolution and the cascade. -/
def enrichArticle (net : Net) (keys : Keys) (a : Article) : Article × List Ev :=
  if is_thin_excerpt a.excerpt then enrichThin net keys (clearIfRetry a) else (a, [])

-- ===========================================================================
-- Manifest exporter (fetch_news.py 495-523)
-- ===========================================================================

/-- One entry of the missing-abstracts manifest. -/
structure ManEntry where
  doi : String
  title : String
  url : String
  category : String
  pubDate : String
deriving DecidableEq

/-- The manifest projection of one stub (fetch_news.py 499-508): the DOI
freshly extracted from the URL, else the stored `doi` key, else `""`. -/
def manifestEntry (a : Article) : ManEntry :=
  { doi := (extract_doi a.url).getD a.doi
    title := a.title
    url := a.url
    category := a.category
    pubDate := a.pubDate }

/-- The manifest list built by the post-enrichment scan (fetch_news.py
496-508): every article whose excerpt is still thin, projected, in
archive order. -/
def missing_list (articles : List Article) : List ManEntry :=
  articles.foldl
    (fun acc a => if is_thin_excerpt a.excerpt then acc ++ [manifestEntry a] else acc)
    []

/-- `enrich_abstracts(articles)` (fetch_news.py 399-523): process every
stub, then rebuild the missing manifest from the processed list.  Returns
the processed articles, the manifest list, and the full event trace. -/
def enrich_abstracts (net : Net) (keys : Keys) (articles : List Article) :
    List Article × List ManEntry × List Ev :=
  let processed := articles.map (fun a => (enrichArticle net keys a).1)
  (processed, missing_list processed,
   articles.foldr (fun a acc => (enrichArticle net keys a).2 ++ acc) [])

/-- Manifest file state after a run (fetch_news.py 510-523): the files are
rewritten from scratch when some stub is still thin, and deleted when none
is; the previous run's manifest `prev` never contributes. -/
def manifest_files_after (prev : Option (List ManEntry)) (net : Net) (keys : Keys)
    (articles : List Article) : Option (List ManEntry) :=
  if (enrich_abstracts net keys articles).2.1 = [] then none
  else some ((enrich_abstracts net keys articles).2.1)

-- ===========================================================================
-- Archive loading and merge (fetch_news.py 526-566)
-- ===========================================================================

/-- State of the persisted archive file `mould_news.json`. -/
inductive ArchiveFile where
  | absent
  | corrupt
  | parsed : List Article → ArchiveFile

/-- Archive loading (fetch_news.py 528-536): a missing file and a parse
failure both degrade to the empty archive (with a logged warning), never
an error. -/
def loadArchive : ArchiveFile → List Article
  | ArchiveFile.absent => []
  | ArchiveFile.corrupt => []
  | ArchiveFile.parsed l => l

/-- Python dict assignment `merged[a.url] = a`: replace in place if the
key exists (keeping its position), else append. -/
def dictInsert (d : List Article) (a : Article) : List Article :=
  if d.any (fun b => b.url == a.url) then
    d.map (fun b => if b.url = a.url then a else b)
  else d ++ [a]

/-- The dict comprehension `{a['url']: a for a in l}`. -/
def dictOfList (l : List Article) : List Article := l.foldl dictInsert []

/-- The merge step of `run_fetcher` (fetch_news.py 562-566): build a dict
keyed by URL from the existing archive, overwrite with every fresh stub,
and stable-sort the values by `pubDate` descending (Python `sorted` with
`reverse=True`). -/
def run_fetcher_merge (existing fresh : List Article) : List Article :=
  sortBy (fun y x => strLtB x.pubDate y.pubDate) (fresh.foldl dictInsert (dictOfList existing))

-- ===========================================================================
-- Derived definitions used by the theorems
-- ===========================================================================

/-- The (excerpt, provenance) pair `enrichThin` would assign for a stub
with the given URL and title, `none` when every step fails.  Depends only
on the oracle, the keys, and the URL/title — this is the content of the
data-flow of fetch_news.py 431-490, used to factor proofs. -/
def attempt (net : Net) (keys : Keys) (url title : String) : Option (String × String) :=
  if optTruthy (resolve_doi net keys url title).1 then
    if optTruthy
        (abstract_cascade net keys ((resolve_doi net keys url title).1.getD "") url).1 then
      some ((abstract_cascade net keys ((resolve_doi net keys url title).1.getD "") url).1.getD "",
        (abstract_cascade net keys ((resolve_doi net keys url title).1.getD "") url).2.1)
    else none
  else
    if optTruthy (net.scrape url) then some ((net.scrape url).getD "", "web_scrape") else none

/-- Apply an enrichment outcome to a stub: assign the truncated excerpt
and the provenance on success, leave the stub untouched on failure. -/
def applyAttempt (a : Article) : Option (String × String) → Article
  | some (t, s) => { a with excerpt := pyTake t 2000, abstract_source := some s }
  | none => a

/-- Is an event an external call? -/
def isCall : Ev → Bool
  | Ev.call _ => true
  | Ev.sleep => false

/-- Does the trace keep a delay between every two consecutive external
calls?  (The property the spec's rate-limiting contract asserts.) -/
def noAdjacentCalls : List Ev → Bool
  | [] => true
  | [_] => true
  | e1 :: e2 :: rest => !(isCall e1 && isCall e2) && noAdjacentCalls (e2 :: rest)

/-- Modelled from the spec: the spec's description of the title-similarity
normalization additionally collapses interior whitespace runs ("strip
non-alphanumeric characters, lowercase, collapse whitespace"), which the
source's `norm` does not do.  This matcher follows the spec's words and is
compared against `titles_match`. -/
def normCollapsedChars (t : String) : List Char := joinSpaceChars (splitWords (normChars t))

/-- Modelled from the spec: the title-similarity test as the spec words it,
on the whitespace-collapsed normalization. -/
def titles_match_collapsed (a b : String) : Bool :=
  let na := normCollapsedChars a
  let nb := normCollapsedChars b
  if na.isEmpty || nb.isEmpty then false
  else if containsL na nb || containsL nb na then true
  else
    let wa := (splitWords na).dedup
    let wb := (splitWords nb).dedup
    if wa.isEmpty || wb.isEmpty then false
    else decide (4 * (wa.filter (fun w => w ∈ wb)).length > 3 * min wa.length wb.length)

-- ===========================================================================
-- Concrete fixtures for witnesses and counterexamples
-- ===========================================================================

/-- A 400-character abstract body. -/
def abstract400 : String := String.mk (List.replicate 400 'x')

/-- A 300-character abstract body. -/
def abstract300 : String := String.mk (List.replicate 300 'y')

/-- Oracle for the end-to-end scenario of the spec: CrossRef resolves the
title to `10.9999/abc`, Semantic Scholar has no abstract, OpenAlex has a
400-character abstract, everything else fails. -/
def netC2 : Net where
  ss := fun _ => HttpResult.ok 200 none
  oa := fun _ => HttpResult.ok 200 (some [(abstract400, [0])])
  epmc := fun _ => HttpResult.exn
  crossref := fun _ =>
    HttpResult.ok 200 [{ title0 := "Novel Mycotoxin Pathway", doi := "10.9999/abc" }]
  elsevier := fun _ => HttpResult.exn
  scrape := fun _ => none

/-- Oracle where every external call fails. -/
def netFail : Net where
  ss := fun _ => HttpResult.exn
  oa := fun _ => HttpResult.exn
  epmc := fun _ => HttpResult.exn
  crossref := fun _ => HttpResult.exn
  elsevier := fun _ => HttpResult.exn
  scrape := fun _ => none

/-- Oracle where only OpenAlex answers (with the 400-character abstract). -/
def netOA : Net :=
  { netFail with oa := fun _ => HttpResult.ok 200 (some [(abstract400, [0])]) }

/-- Oracle where Semantic Scholar answers with the 300-character abstract. -/
def netSS : Net :=
  { netFail with ss := fun _ => HttpResult.ok 200 (some abstract300) }

/-- Oracle where every identifier-based service replies 500. -/
def netBad : Net where
  ss := fun _ => HttpResult.ok 500 none
  oa := fun _ => HttpResult.ok 500 none
  epmc := fun _ => HttpResult.ok 500 []
  crossref := fun _ => HttpResult.ok 500 []
  elsevier := fun _ => HttpResult.ok 500 none
  scrape := fun _ => none

/-- No credentials set. -/
def keys0 : Keys := {}

/-- The spec's end-to-end input stub. -/
def stubC2 : Article :=
  { title := "Novel Mycotoxin Pathway"
    url := "https://x/1"
    excerpt := "Publication date: 2026-01-01. Author(s): Smith, J."
    pubDate := "2026-01-05T00:00:00Z"
    category := "science" }

/-- A thin stub whose URL carries a DOI. -/
def artDoi : Article :=
  { title := "Some Fungal Paper"
    url := "https://doi.org/10.1016/j.jhazmat.2026.141323"
    excerpt := "Available online"
    pubDate := "2026-01-02T00:00:00Z" }

/-- A previously enriched stub that is still thin and carries both stale
provenance and a stored identifier. -/
def artRetry : Article :=
  { title := ""
    url := "https://x/2"
    excerpt := "Publication date: 2026-01-01."
    abstract_source := some "openalex"
    doi := "10.1/old" }

/-- An archived stub with a 150-character (non-thin) excerpt. -/
def archivedRich : Article :=
  { url := "https://a/1", excerpt := String.mk (List.replicate 150 'a')
    pubDate := "2026-01-02", title := "T1" }

/-- A fresh scrape of the same URL whose feed excerpt is thin. -/
def freshThin : Article :=
  { url := "https://a/1", excerpt := "Publication date: 2026-01-01."
    pubDate := "2026-01-03", title := "T1" }

/-- A fresh stub under a different key. -/
def freshOther : Article :=
  { url := "https://b/9", excerpt := "Publication date: 2026-02-01."
    pubDate := "2026-02-01", title := "T9" }

/-- Archive fixture, sorted by `pubDate` descending, unique keys. -/
def arch1 : Article :=
  { url := "https://a/1", excerpt := String.mk (List.replicate 150 'a')
    pubDate := "2026-01-05", title := "P1" }

/-- Second archive fixture entry. -/
def arch2 : Article :=
  { url := "https://b/2", excerpt := "short", pubDate := "2026-01-03", title := "P2" }

-- ===========================================================================
-- Helper lemmas
-- ===========================================================================

theorem startsWithL_iff (pat l : List Char) :
    startsWithL pat l = true ↔ ∃ q, l = pat ++ q := by
  induction pat generalizing l with
  | nil => simp [startsWithL]
  | cons p ps ih =>
    cases l with
    | nil => simp [startsWithL]
    | cons c cs =>
      simp only [startsWithL, Bool.and_eq_true, beq_iff_eq, ih, List.cons_append]
      constructor
      · rintro ⟨rfl, q, rfl⟩
        exact ⟨q, rfl⟩
      · rintro ⟨q, hq⟩
        injection hq with h1 h2
        exact ⟨h1.symm, q, h2⟩

theorem containsL_iff (pat l : List Char) :
    containsL pat l = true ↔ ∃ p q, l = p ++ pat ++ q := by
  induction l with
  | nil =>
    simp only [containsL, startsWithL_iff]
    constructor
    · rintro ⟨q, hq⟩
      exact ⟨[], q, by simpa using hq⟩
    · rintro ⟨p, q, hpq⟩
      rcases List.append_eq_nil.mp hpq.symm with ⟨h1, h2⟩
      rcases List.append_eq_nil.mp h1 with ⟨h3, h4⟩
      exact ⟨[], by simp [h2, h4]⟩
  | cons c cs ih =>
    simp only [containsL, List.tail_cons, Bool.or_eq_true, startsWithL_iff, ih]
    constructor
    · rintro (⟨q, hq⟩ | ⟨p, q, hq⟩)
      · exact ⟨[], q, by simpa using hq⟩
      · exact ⟨c :: p, q, by simp [hq]⟩
    · rintro ⟨p, q, hpq⟩
      cases p with
      | nil => exact Or.inl ⟨q, by simpa using hpq⟩
      | cons x xs =>
        injection hpq with h1 h2
        exact Or.inr ⟨xs, q, h2⟩

theorem insertBy_perm {α : Type} (lt : α → α → Bool) (x : α) (l : List α) :
    (insertBy lt x l).Perm (x :: l) := by
  induction l with
  | nil => exact List.Perm.refl _
  | cons y ys ih =>
    unfold insertBy
    split
    · exact (ih.cons y).trans (List.Perm.swap x y ys)
    · exact List.Perm.refl _

theorem sortBy_perm {α : Type} (lt : α → α → Bool) (l : List α) :
    (sortBy lt l).Perm l := by
  induction l with
  | nil => exact List.Perm.refl _
  | cons x xs ih => exact (insertBy_perm lt x (sortBy lt xs)).trans (ih.cons x)

theorem sortBy_eq_self {α : Type} (lt : α → α → Bool) (l : List α)
    (h : l.Pairwise (fun x y => lt y x = false)) : sortBy lt l = l := by
  induction l with
  | nil => rfl
  | cons x xs ih =>
    rw [List.pairwise_cons] at h
    unfold sortBy
    rw [ih h.2]
    cases xs with
    | nil => rfl
    | cons y ys =>
      unfold insertBy
      rw [if_neg]
      simp [h.1 y (List.mem_cons_self y ys)]

theorem mem_dictInsert_of_ne {d : List Article} {a f : Article}
    (ha : a ∈ d) (hne : f.url ≠ a.url) : a ∈ dictInsert d f := by
  unfold dictInsert
  split
  · refine List.mem_map.mpr ⟨a, ha, ?_⟩
    rw [if_neg (fun h => hne h.symm)]
  · exact List.mem_append_left _ ha

theorem dictInsert_pairwise {d : List Article} {f : Article}
    (h : d.Pairwise (fun x y => x.url ≠ y.url)) :
    (dictInsert d f).Pairwise (fun x y => x.url ≠ y.url) := by
  unfold dictInsert
  split
  · rw [List.pairwise_map]
    have hg : ∀ b : Article, (if b.url = f.url then f else b).url = b.url := by
      intro b
      split
      · rename_i hb; exact hb.symm
      · rfl
    exact h.imp (fun hxy => by rw [hg, hg]; exact hxy)
  · rename_i hany
    rw [List.pairwise_append]
    refine ⟨h, List.pairwise_singleton _ _, ?_⟩
    intro x hx y hy
    rcases List.mem_singleton.mp hy with rfl
    intro hxf
    exact hany (List.any_eq_true.mpr ⟨x, hx, by simpa using hxf⟩)

theorem foldl_dictInsert_pairwise :
    ∀ (fresh d : List Article), d.Pairwise (fun x y => x.url ≠ y.url) →
      (fresh.foldl dictInsert d).Pairwise (fun x y => x.url ≠ y.url)
  | [], d, h => h
  | f :: fs, d, h => foldl_dictInsert_pairwise fs (dictInsert d f) (dictInsert_pairwise h)

theorem mem_foldl_dictInsert :
    ∀ (fresh d : List Article) (a : Article), a ∈ d → (∀ f ∈ fresh, f.url ≠ a.url) →
      a ∈ fresh.foldl dictInsert d
  | [], _, _, ha, _ => ha
  | f :: fs, d, a, ha, hf =>
    mem_foldl_dictInsert fs (dictInsert d f) a
      (mem_dictInsert_of_ne ha (hf f (List.mem_cons_self f fs)))
      (fun g hg => hf g (List.mem_cons_of_mem f hg))

theorem pairwise_url_eq {l : List Article}
    (h : l.Pairwise (fun x y => x.url ≠ y.url)) {a b : Article}
    (ha : a ∈ l) (hb : b ∈ l) (hab : a.url = b.url) : a = b := by
  by_contra hne
  exact h.forall (fun x y hxy => fun he => hxy he.symm) ha hb hne hab

theorem dictInsert_self {d : List Article} {a : Article}
    (h : d.Pairwise (fun x y => x.url ≠ y.url)) (ha : a ∈ d) : dictInsert d a = d := by
  unfold dictInsert
  rw [if_pos (List.any_eq_true.mpr ⟨a, ha, by simp⟩)]
  have : ∀ b ∈ d, (if b.url = a.url then a else b) = b := by
    intro b hb
    split
    · rename_i hba
      exact pairwise_url_eq h ha hb hba.symm
    · rfl
  calc d.map (fun b => if b.url = a.url then a else b) = d.map id := List.map_congr_left this
  _ = d := List.map_id d

theorem foldl_dictInsert_stable :
    ∀ (l : List Article) (A : List Article), A.Pairwise (fun x y => x.url ≠ y.url) →
      (∀ a ∈ l, a ∈ A) → l.foldl dictInsert A = A
  | [], _, _, _ => rfl
  | a :: l, A, hA, hl => by
    unfold List.foldl
    rw [dictInsert_self hA (hl a (List.mem_cons_self a l))]
    exact foldl_dictInsert_stable l A hA (fun b hb => hl b (List.mem_cons_of_mem a hb))

theorem foldl_dictInsert_fresh :
    ∀ (l d : List Article), l.Pairwise (fun x y => x.url ≠ y.url) →
      (∀ a ∈ l, ∀ b ∈ d, b.url ≠ a.url) → l.foldl dictInsert d = d ++ l
  | [], d, _, _ => (List.append_nil d).symm
  | a :: l, d, hp, hd => by
    rw [List.pairwise_cons] at hp
    unfold List.foldl
    have hnew : dictInsert d a = d ++ [a] := by
      unfold dictInsert
      rw [if_neg]
      intro hany
      rcases List.any_eq_true.mp hany with ⟨b, hb, hbeq⟩
      exact hd a (List.mem_cons_self a l) b hb (by simpa using hbeq)
    rw [hnew, foldl_dictInsert_fresh l (d ++ [a]) hp.2 ?_]
    · simp
    · intro x hx b hb
      rcases List.mem_append.mp hb with hb1 | hb2
      · exact hd x (List.mem_cons_of_mem a hx) b hb1
      · rcases List.mem_singleton.mp hb2 with rfl
        exact hp.1 x hx

theorem dictOfList_self {A : List Article}
    (h : A.Pairwise (fun x y => x.url ≠ y.url)) : dictOfList A = A := by
  unfold dictOfList
  simpa using foldl_dictInsert_fresh A [] h (by simp)

theorem clearIfRetry_url (a : Article) : (clearIfRetry a).url = a.url := by
  unfold clearIfRetry
  split <;> rfl

theorem clearIfRetry_title (a : Article) : (clearIfRetry a).title = a.title := by
  unfold clearIfRetry
  split <;> rfl

theorem clearIfRetry_doi (a : Article) : (clearIfRetry a).doi = a.doi := by
  unfold clearIfRetry
  split <;> rfl

theorem clearIfRetry_eq_of_src {a : Article} (h : optTruthy a.abstract_source = false) :
    clearIfRetry a = a := by
  unfold clearIfRetry
  rw [if_neg (by simp [h])]

theorem clearIfRetry_src (a : Article) : optTruthy (clearIfRetry a).abstract_source = false := by
  unfold clearIfRetry
  split
  · rfl
  · rename_i h
    simpa using h

theorem clearIfRetry_thin {a : Article} (h : is_thin_excerpt a.excerpt = true) :
    is_thin_excerpt (clearIfRetry a).excerpt = true := by
  unfold clearIfRetry
  split
  · show is_thin_excerpt "" = true
    decide
  · exact h

theorem enrichThin_fst (net : Net) (keys : Keys) (a : Article) :
    (enrichThin net keys a).1 = applyAttempt a (attempt net keys a.url a.title) := by
  by_cases h1 : optTruthy (resolve_doi net keys a.url a.title).1 = true
  · by_cases h2 : optTruthy
        (abstract_cascade net keys ((resolve_doi net keys a.url a.title).1.getD "") a.url).1 = true
    · simp [enrichThin, attempt, applyAttempt, h1, h2]
    · simp [enrichThin, attempt, applyAttempt, h1, h2]
  · by_cases h2 : optTruthy (net.scrape a.url) = true
    · simp [enrichThin, attempt, applyAttempt, h1, h2]
    · simp [enrichThin, attempt, applyAttempt, h1, h2]

theorem cascade_src (net : Net) (keys : Keys) (doi url : String) :
    (abstract_cascade net keys doi url).2.1 = "semantic_scholar" ∨
    (abstract_cascade net keys doi url).2.1 = "openalex" ∨
    (abstract_cascade net keys doi url).2.1 = "europepmc" ∨
    (abstract_cascade net keys doi url).2.1 = "web_scrape" := by
  simp only [abstract_cascade]
  split_ifs <;> simp

theorem cascade_trace (net : Net) (keys : Keys) (doi url : String) :
    (abstract_cascade net keys doi url).2.2 = [Ev.call Src.semantic_scholar] ∨
    (abstract_cascade net keys doi url).2.2 =
      [Ev.call Src.semantic_scholar, Ev.call Src.openalex] ∨
    (abstract_cascade net keys doi url).2.2 =
      [Ev.call Src.semantic_scholar, Ev.call Src.openalex, Ev.call Src.europepmc] ∨
    (abstract_cascade net keys doi url).2.2 =
      [Ev.call Src.semantic_scholar, Ev.call Src.openalex, Ev.call Src.europepmc,
       Ev.call Src.web_scrape] := by
  simp only [abstract_cascade]
  split_ifs <;> simp

theorem resolve_doi_trace (net : Net) (keys : Keys) (url title : String) :
    (resolve_doi net keys url title).2 = [] ∨
    (resolve_doi net keys url title).2 = [Ev.call Src.elsevier] ∨
    (resolve_doi net keys url title).2 = [Ev.call Src.crossref] ∨
    (resolve_doi net keys url title).2 = [Ev.call Src.elsevier, Ev.call Src.crossref] := by
  have hsd : (resolve_doi_sd net keys url).2 = [] ∨
      (resolve_doi_sd net keys url).2 = [Ev.call Src.elsevier] := by
    unfold resolve_doi_sd
    by_cases h1 : containsSub url "sciencedirect.com" = true
    · rw [if_pos h1]
      cases hp : extract_pii url with
      | some pii =>
        by_cases h2 : optTruthy keys.elsevier = true
        · rw [if_pos h2]
          simp
        · rw [if_neg h2]
          simp
      | none => simp
    · rw [if_neg h1]
      simp
  unfold resolve_doi
  split_ifs <;> rcases hsd with h | h <;> simp [h]

theorem attempt_src_truthy {net : Net} {keys : Keys} {url title x s}
    (h : attempt net keys url title = some (x, s)) : optTruthy (some s) = true := by
  unfold attempt at h
  by_cases h1 : optTruthy (resolve_doi net keys url title).1 = true
  · rw [if_pos h1] at h
    by_cases h2 : optTruthy
        (abstract_cascade net keys ((resolve_doi net keys url title).1.getD "") url).1 = true
    · rw [if_pos h2] at h
      injection h with h3
      have hs : s =
          (abstract_cascade net keys ((resolve_doi net keys url title).1.getD "") url).2.1 := by
        have h4 := congrArg Prod.snd h3
        simpa using h4.symm
      rcases cascade_src net keys ((resolve_doi net keys url title).1.getD "") url with
        h4 | h4 | h4 | h4 <;> rw [hs, h4] <;> rfl
    · rw [if_neg h2] at h
      exact absurd h (by simp)
  · rw [if_neg h1] at h
    by_cases h2 : optTruthy (net.scrape url) = true
    · rw [if_pos h2] at h
      injection h with h3
      have hs : s = "web_scrape" := by
        have h4 := congrArg Prod.snd h3
        simpa using h4.symm
      rw [hs]
      rfl
    · rw [if_neg h2] at h
      exact absurd h (by simp)

theorem applyAttempt_url (b : Article) (t : Option (String × String)) :
    (applyAttempt b t).url = b.url := by
  cases t with
  | none => rfl
  | some ts =>
    obtain ⟨x, s⟩ := ts
    rfl

theorem applyAttempt_title (b : Article) (t : Option (String × String)) :
    (applyAttempt b t).title = b.title := by
  cases t with
  | none => rfl
  | some ts =>
    obtain ⟨x, s⟩ := ts
    rfl

theorem applyAttempt_doi (b : Article) (t : Option (String × String)) :
    (applyAttempt b t).doi = b.doi := by
  cases t with
  | none => rfl
  | some ts =>
    obtain ⟨x, s⟩ := ts
    rfl

theorem enrichArticle_thin_eq (net : Net) (keys : Keys) {a : Article}
    (h : is_thin_excerpt a.excerpt = true) :
    (enrichArticle net keys a).1 =
      applyAttempt (clearIfRetry a) (attempt net keys a.url a.title) := by
  unfold enrichArticle
  rw [if_pos h, enrichThin_fst, clearIfRetry_url, clearIfRetry_title]

theorem enrichArticle_notthin_eq (net : Net) (keys : Keys) {a : Article}
    (h : is_thin_excerpt a.excerpt = false) :
    (enrichArticle net keys a).1 = a := by
  unfold enrichArticle
  rw [if_neg (by simp [h])]

theorem enrichArticle_idem (net : Net) (keys : Keys) (a : Article) :
    (enrichArticle net keys (enrichArticle net keys a).1).1 = (enrichArticle net keys a).1 := by
  by_cases h : is_thin_excerpt a.excerpt = true
  · rw [enrichArticle_thin_eq net keys h]
    by_cases h2 : is_thin_excerpt
        (applyAttempt (clearIfRetry a) (attempt net keys a.url a.title)).excerpt = true
    · rw [enrichArticle_thin_eq net keys h2, applyAttempt_url, applyAttempt_title,
        clearIfRetry_url, clearIfRetry_title]
      cases ht : attempt net keys a.url a.title with
      | none =>
        simp only [applyAttempt]
        exact clearIfRetry_eq_of_src (clearIfRetry_src a)
      | some ts =>
        obtain ⟨x, s⟩ := ts
        simp only [applyAttempt]
        have hsrc : optTruthy
            ({ (clearIfRetry a) with
                excerpt := pyTake x 2000
                abstract_source := some s } : Article).abstract_source = true :=
          attempt_src_truthy ht
        rw [show clearIfRetry
              { (clearIfRetry a) with excerpt := pyTake x 2000, abstract_source := some s } =
            { (clearIfRetry a) with excerpt := "", abstract_source := none } from by
          unfold clearIfRetry
          rw [if_pos hsrc]]
    · rw [enrichArticle_notthin_eq net keys (by simpa using h2)]
  · have h1 : is_thin_excerpt a.excerpt = false := by simpa using h
    rw [enrichArticle_notthin_eq net keys h1, enrichArticle_notthin_eq net keys h1]

theorem enrich_abstracts_idem (net : Net) (keys : Keys) (arts : List Article) :
    (enrich_abstracts net keys (enrich_abstracts net keys arts).1).1 =
      (enrich_abstracts net keys arts).1 := by
  unfold enrich_abstracts
  dsimp only
  rw [List.map_map]
  exact List.map_congr_left (fun a _ => enrichArticle_idem net keys a)

theorem missing_list_eq (arts : List Article) :
    missing_list arts =
      (arts.filter (fun a => is_thin_excerpt a.excerpt)).map manifestEntry := by
  have gen : ∀ (l : List Article) (acc : List ManEntry),
      l.foldl (fun acc a => if is_thin_excerpt a.excerpt then acc ++ [manifestEntry a] else acc)
          acc =
        acc ++ (l.filter (fun a => is_thin_excerpt a.excerpt)).map manifestEntry := by
    intro l
    induction l with
    | nil =>
      intro acc
      simp
    | cons a l ih =>
      intro acc
      by_cases h : is_thin_excerpt a.excerpt = true
      · simp [h, ih, List.filter_cons]
      · simp [h, ih, List.filter_cons]
  unfold missing_list
  simpa using gen arts []

-- ===========================================================================
-- Claim theorems
-- ===========================================================================

/-- C5 (amended): `_titles_match(a, b)` accepts exactly when both
normalized titles are non-empty and one occurs contiguously inside the
other, or the word-set intersection divided by the smaller word-set size
exceeds 0.75; the normalization strips non-alphanumeric characters,
lowercases and trims, but does NOT collapse interior whitespace runs.  The
spec's two examples behave as it states. -/
theorem C5_titles_match_characterization :
    (∀ a b : String,
      titles_match a b = true ↔
        (normChars a ≠ [] ∧ normChars b ≠ [] ∧
          ((∃ p q, normChars b = p ++ normChars a ++ q) ∨
           (∃ p q, normChars a = p ++ normChars b ++ q) ∨
           4 * ((splitWords (normChars a)).dedup.filter
                  (fun w => w ∈ (splitWords (normChars b)).dedup)).length >
             3 * min ((splitWords (normChars a)).dedup).length
               ((splitWords (normChars b)).dedup).length))) ∧
    titles_match "Aspergillus fumigatus in Indoor Environments"
      "Aspergillus fumigatus in indoor environments: a survey" = true ∧
    titles_match "Aspergillus fumigatus in Indoor Environments"
      "Penicillium growth on agricultural waste" = false := by
  refine ⟨?_, by decide, by decide⟩
  intro a b
  simp only [titles_match]
  split_ifs with h1 h2 h3
  · rcases Bool.or_eq_true_iff.mp h1 with he | he
    · simp [List.isEmpty_iff.mp he]
    · simp [List.isEmpty_iff.mp he]
  · have h1a : (normChars a).isEmpty = false ∧ (normChars b).isEmpty = false := by
      constructor <;> [skip; skip] <;> revert h1 <;> cases (normChars a).isEmpty <;>
        cases (normChars b).isEmpty <;> simp
    have hna : normChars a ≠ [] := by
      intro hcon
      rw [hcon] at h1a
      simpa using h1a.1
    have hnb : normChars b ≠ [] := by
      intro hcon
      rw [hcon] at h1a
      simpa using h1a.2
    constructor
    · intro _
      rcases Bool.or_eq_true_iff.mp h2 with hc | hc
      · exact ⟨hna, hnb, Or.inl ((containsL_iff _ _).mp hc)⟩
      · exact ⟨hna, hnb, Or.inr (Or.inl ((containsL_iff _ _).mp hc))⟩
    · intro _
      rfl
  · constructor
    · intro hcon
      exact absurd hcon (by simp)
    · rintro ⟨hna, hnb, hsub | hsub | hov⟩
      · exact absurd (Bool.or_eq_true_iff.mpr (Or.inl ((containsL_iff _ _).mpr hsub))) h2
      · exact absurd (Bool.or_eq_true_iff.mpr (Or.inr ((containsL_iff _ _).mpr hsub))) h2
      · rcases Bool.or_eq_true_iff.mp h3 with he | he
        · rw [List.isEmpty_iff.mp he] at hov
          simp at hov
        · rw [List.isEmpty_iff.mp he] at hov
          simp at hov
  · rw [decide_eq_true_iff]
    have h1a : (normChars a).isEmpty = false ∧ (normChars b).isEmpty = false := by
      constructor <;> [skip; skip] <;> revert h1 <;> cases (normChars a).isEmpty <;>
        cases (normChars b).isEmpty <;> simp
    have hna : normChars a ≠ [] := by
      intro hcon
      rw [hcon] at h1a
      simpa using h1a.1
    have hnb : normChars b ≠ [] := by
      intro hcon
      rw [hcon] at h1a
      simpa using h1a.2
    constructor
    · intro hov
      exact ⟨hna, hnb, Or.inr (Or.inr hov)⟩
    · rintro ⟨_, _, hsub | hsub | hov⟩
      · exact absurd (Bool.or_eq_true_iff.mpr (Or.inl ((containsL_iff _ _).mpr hsub))) h2
      · exact absurd (Bool.or_eq_true_iff.mpr (Or.inr ((containsL_iff _ _).mpr hsub))) h2
      · exact hov

/-- C5 counterexample: the claim describes the normalization as also
collapsing whitespace; the spec-worded matcher and the source matcher
disagree on `"ration nat"` versus `"operation , national"` (the comma
leaves a double space, so the source's substring test fails and the word
overlap is 0, while the collapsed form contains the first title). -/
theorem C5_counterexample :
    titles_match_collapsed "ration nat" "operation , national" = true ∧
    titles_match "ration nat" "operation , national" = false := by decide

/-- C1 (amended): the merge preserves every archive entry whose key does
not occur among the fresh stubs — in particular such non-thin excerpts
survive — but an entry whose key is shared with a fresh stub is replaced
unconditionally (see the counterexample). -/
theorem C1_merge_preserves_unreplaced_keys (existing fresh : List Article) (a : Article)
    (hkeys : existing.Pairwise (fun x y => x.url ≠ y.url))
    (hmem : a ∈ existing)
    (hfresh : ∀ f ∈ fresh, f.url ≠ a.url) :
    a ∈ run_fetcher_merge existing fresh ∧
    (∀ b ∈ run_fetcher_merge existing fresh, b.url = a.url → b = a) ∧
    (is_thin_excerpt a.excerpt = false →
      ∀ b ∈ run_fetcher_merge existing fresh, b.url = a.url →
        is_thin_excerpt b.excerpt = false) := by
  unfold run_fetcher_merge
  rw [dictOfList_self hkeys]
  have hmem2 : a ∈ fresh.foldl dictInsert existing :=
    mem_foldl_dictInsert fresh existing a hmem hfresh
  have hpw := foldl_dictInsert_pairwise fresh existing hkeys
  have hperm :=
    sortBy_perm (fun y x => strLtB x.pubDate y.pubDate) (fresh.foldl dictInsert existing)
  refine ⟨hperm.mem_iff.mpr hmem2, ?_, ?_⟩
  · intro b hb hurl
    exact pairwise_url_eq hpw (hperm.mem_iff.mp hb) hmem2 hurl
  · intro hthin b hb hurl
    rw [pairwise_url_eq hpw (hperm.mem_iff.mp hb) hmem2 hurl]
    exact hthin

/-- Witness for C1 at a concrete archive: a non-thin entry whose key is
not among the fresh stubs survives the merge intact. -/
theorem C1_merge_preserves_unreplaced_keys_witness :
    archivedRich ∈ run_fetcher_merge [archivedRich] [freshOther] ∧
    (∀ b ∈ run_fetcher_merge [archivedRich] [freshOther],
       b.url = archivedRich.url → b = archivedRich) ∧
    (is_thin_excerpt archivedRich.excerpt = false →
      ∀ b ∈ run_fetcher_merge [archivedRich] [freshOther], b.url = archivedRich.url →
        is_thin_excerpt b.excerpt = false) :=
  C1_merge_preserves_unreplaced_keys [archivedRich] [freshOther] archivedRich
    (by simp) (by simp) (by decide)

set_option maxRecDepth 8000 in
/-- C1 counterexample: the merge replaces a non-thin archived excerpt by a
thin fresh one for the same key, refuting merge-level non-regression. -/
theorem C1_counterexample :
    is_thin_excerpt archivedRich.excerpt = false ∧
    is_thin_excerpt freshThin.excerpt = true ∧
    freshThin.url = archivedRich.url ∧
    run_fetcher_merge [archivedRich] [freshThin] = [freshThin] := by decide

/-- C8: merging an archive (unique keys, sorted by publication date
descending) with a fresh batch identical to itself returns the archive
unchanged — same key-to-stub mapping and same order. -/
theorem C8_merge_idempotent (A : List Article)
    (hkeys : A.Pairwise (fun x y => x.url ≠ y.url))
    (hsorted : A.Pairwise (fun x y => strLtB x.pubDate y.pubDate = false)) :
    run_fetcher_merge A A = A := by
  unfold run_fetcher_merge
  rw [dictOfList_self hkeys, foldl_dictInsert_stable A A hkeys (fun a ha => ha)]
  exact sortBy_eq_self _ A hsorted

set_option maxRecDepth 8000 in
/-- Witness for C8 on a concrete two-entry archive. -/
theorem C8_merge_idempotent_witness :
    run_fetcher_merge [arch1, arch2] [arch1, arch2] = [arch1, arch2] :=
  C8_merge_idempotent [arch1, arch2] (by decide) (by decide)

theorem cascade_ss_hit {net : Net} {keys : Keys} {doi url s : String}
    (hss : net.ss doi = HttpResult.ok 200 (some s)) (hlen : 50 < s.data.length) :
    abstract_cascade net keys doi url =
      (some s, "semantic_scholar", [Ev.call Src.semantic_scholar]) := by
  have hfetch : fetch_abstract_semantic_scholar net doi keys.ss2 = some s := by
    unfold fetch_abstract_semantic_scholar
    rw [hss]
    simpa using hlen
  have htr : optTruthy (some s) = true := by
    cases hd : s.data with
    | nil =>
      rw [hd] at hlen
      simp at hlen
    | cons c cs => simp [optTruthy, hd]
  simp [abstract_cascade, hfetch, htr]

theorem no_sleep_resolver {t : List Ev}
    (h : t = [] ∨ t = [Ev.call Src.elsevier] ∨ t = [Ev.call Src.crossref] ∨
      t = [Ev.call Src.elsevier, Ev.call Src.crossref]) :
    ∀ e ∈ t, e ≠ Ev.sleep := by
  rcases h with h | h | h | h <;> subst h <;> decide

theorem no_sleep_cascade {t : List Ev}
    (h : t = [Ev.call Src.semantic_scholar] ∨
      t = [Ev.call Src.semantic_scholar, Ev.call Src.openalex] ∨
      t = [Ev.call Src.semantic_scholar, Ev.call Src.openalex, Ev.call Src.europepmc] ∨
      t = [Ev.call Src.semantic_scholar, Ev.call Src.openalex, Ev.call Src.europepmc,
           Ev.call Src.web_scrape]) :
    ∀ e ∈ t, e ≠ Ev.sleep := by
  rcases h with h | h | h | h <;> subst h <;> decide

theorem enrichThin_trace (net : Net) (keys : Keys) (b : Article) :
    ∃ p, (∀ e ∈ p, e ≠ Ev.sleep) ∧
      ((enrichThin net keys b).2 = p ∨ (enrichThin net keys b).2 = p ++ [Ev.sleep]) := by
  have hrd := resolve_doi_trace net keys b.url b.title
  simp only [enrichThin]
  by_cases h1 : optTruthy (resolve_doi net keys b.url b.title).1 = true
  · rw [if_pos h1]
    have hct := cascade_trace net keys
      ((resolve_doi net keys b.url b.title).1.getD "") b.url
    by_cases h2 : optTruthy
        (abstract_cascade net keys
          ((resolve_doi net keys b.url b.title).1.getD "") b.url).1 = true
    · rw [if_pos h2]
      refine ⟨(resolve_doi net keys b.url b.title).2 ++
        (abstract_cascade net keys
          ((resolve_doi net keys b.url b.title).1.getD "") b.url).2.2, ?_, Or.inr ?_⟩
      · intro e he
        rcases List.mem_append.mp he with he | he
        · exact no_sleep_resolver hrd e he
        · exact no_sleep_cascade hct e he
      · rw [List.append_assoc]
    · rw [if_neg h2]
      refine ⟨(resolve_doi net keys b.url b.title).2 ++
        (abstract_cascade net keys
          ((resolve_doi net keys b.url b.title).1.getD "") b.url).2.2, ?_, Or.inr ?_⟩
      · intro e he
        rcases List.mem_append.mp he with he | he
        · exact no_sleep_resolver hrd e he
        · exact no_sleep_cascade hct e he
      · rw [List.append_assoc]
  · rw [if_neg h1]
    by_cases h2 : optTruthy (net.scrape b.url) = true
    · rw [if_pos h2]
      refine ⟨(resolve_doi net keys b.url b.title).2 ++ [Ev.call Src.web_scrape], ?_, Or.inr ?_⟩
      · intro e he
        rcases List.mem_append.mp he with he | he
        · exact no_sleep_resolver hrd e he
        · rcases List.mem_singleton.mp he with rfl
          decide
      · rw [List.append_assoc]
        rfl
    · rw [if_neg h2]
      refine ⟨(resolve_doi net keys b.url b.title).2 ++ [Ev.call Src.web_scrape], ?_, Or.inl rfl⟩
      intro e he
      rcases List.mem_append.mp he with he | he
      · exact no_sleep_resolver hrd e he
      · rcases List.mem_singleton.mp he with rfl
        decide

/-- C7 (amended): the event trace of one stub is a block of external calls
followed by at most one `time.sleep(0.3)` — the delay is per stub (after
the cascade, or after a successful identifier-less scrape), not between
consecutive external calls. -/
theorem C7_delay_per_stub :
    ∀ (net : Net) (keys : Keys) (a : Article),
      ∃ p, (∀ e ∈ p, e ≠ Ev.sleep) ∧
        ((enrichArticle net keys a).2 = p ∨
         (enrichArticle net keys a).2 = p ++ [Ev.sleep]) := by
  intro net keys a
  unfold enrichArticle
  split_ifs with h
  · exact enrichThin_trace net keys (clearIfRetry a)
  · exact ⟨[], by simp, Or.inl rfl⟩

set_option maxRecDepth 8000 in
/-- C7 counterexample: a stub with a DOI in its URL whose Semantic Scholar
lookup fails and whose OpenAlex lookup succeeds issues two consecutive
external calls with no delay between them; and a stub that needs all four
sources incurs exactly one delay, not four. -/
theorem C7_counterexample :
    noAdjacentCalls (enrichArticle netOA keys0 artDoi).2 = false ∧
    (enrichArticle netFail keys0 artDoi).2 =
      [Ev.call Src.semantic_scholar, Ev.call Src.openalex, Ev.call Src.europepmc,
       Ev.call Src.web_scrape, Ev.sleep] ∧
    ((enrichArticle netFail keys0 artDoi).2.filter (fun e => e == Ev.sleep)).length = 1 := by
  decide

/-- C4 (amended): a stub is submitted to resolution and the cascade
exactly when its excerpt is thin (a non-thin stub is returned untouched
with no external call); a thin stub with stale provenance has its
`abstract_source` popped and its excerpt blanked before the re-attempt
(the stored `doi`, however, is not cleared — see the counterexample). -/
theorem C4_retry_gating :
    ∀ (net : Net) (keys : Keys) (a : Article),
      (is_thin_excerpt a.excerpt = false → enrichArticle net keys a = (a, [])) ∧
      (is_thin_excerpt a.excerpt = true → (enrichArticle net keys a).2 ≠ []) ∧
      (is_thin_excerpt a.excerpt = true → optTruthy a.abstract_source = true →
        enrichArticle net keys a =
          enrichThin net keys { a with abstract_source := none, excerpt := "" }) := by
  intro net keys a
  refine ⟨?_, ?_, ?_⟩
  · intro h
    unfold enrichArticle
    rw [if_neg (by simp [h])]
  · intro h
    unfold enrichArticle
    rw [if_pos h]
    simp only [enrichThin]
    split_ifs <;> simp
  · intro h hsrc
    unfold enrichArticle clearIfRetry
    rw [if_pos h, if_pos hsrc]

set_option maxRecDepth 8000 in
/-- Witness for C4: the still-thin, previously enriched stub is re-queued
through the clearing step. -/
theorem C4_retry_gating_witness :
    enrichArticle netFail keys0 artRetry =
      enrichThin netFail keys0 { artRetry with abstract_source := none, excerpt := "" } :=
  (C4_retry_gating netFail keys0 artRetry).2.2 (by decide) (by decide)

set_option maxRecDepth 8000 in
/-- C4 counterexample: re-queuing clears the stale `abstract_source` and
blanks the excerpt, but the stored identifier (`doi` key) survives the
re-attempt, so the claim's "identifier is cleared" part fails. -/
theorem C4_counterexample :
    is_thin_excerpt artRetry.excerpt = true ∧
    optTruthy artRetry.abstract_source = true ∧
    (enrichArticle netFail keys0 artRetry).1.abstract_source = none ∧
    (enrichArticle netFail keys0 artRetry).1.excerpt = "" ∧
    (enrichArticle netFail keys0 artRetry).1.doi = "10.1/old" := by
  decide

/-- C3: the cascade calls Semantic Scholar, then OpenAlex, then Europe
PMC, then page scraping; each later source is called exactly when every
earlier fetcher returned nothing usable; and when Semantic Scholar
returns a valid 300-character abstract the later sources are never called
and the recorded provenance is `semantic_scholar`. -/
theorem C3_cascade_short_circuit :
    (∀ (net : Net) (keys : Keys) (doi url : String),
      ((abstract_cascade net keys doi url).2.2 = [Ev.call Src.semantic_scholar] ∨
       (abstract_cascade net keys doi url).2.2 =
         [Ev.call Src.semantic_scholar, Ev.call Src.openalex] ∨
       (abstract_cascade net keys doi url).2.2 =
         [Ev.call Src.semantic_scholar, Ev.call Src.openalex, Ev.call Src.europepmc] ∨
       (abstract_cascade net keys doi url).2.2 =
         [Ev.call Src.semantic_scholar, Ev.call Src.openalex, Ev.call Src.europepmc,
          Ev.call Src.web_scrape]) ∧
      (Ev.call Src.openalex ∈ (abstract_cascade net keys doi url).2.2 ↔
        optTruthy (fetch_abstract_semantic_scholar net doi keys.ss2) = false) ∧
      (Ev.call Src.europepmc ∈ (abstract_cascade net keys doi url).2.2 ↔
        (optTruthy (fetch_abstract_semantic_scholar net doi keys.ss2) = false ∧
         optTruthy (fetch_abstract_openalex net doi keys.openalex) = false)) ∧
      (Ev.call Src.web_scrape ∈ (abstract_cascade net keys doi url).2.2 ↔
        (optTruthy (fetch_abstract_semantic_scholar net doi keys.ss2) = false ∧
         optTruthy (fetch_abstract_openalex net doi keys.openalex) = false ∧
         optTruthy (fetch_abstract_europepmc net doi) = false))) ∧
    (∀ (net : Net) (keys : Keys) (doi url s : String),
      net.ss doi = HttpResult.ok 200 (some s) → s.length = 300 →
      (abstract_cascade net keys doi url).1 = some s ∧
      (abstract_cascade net keys doi url).2.1 = "semantic_scholar" ∧
      (abstract_cascade net keys doi url).2.2 = [Ev.call Src.semantic_scholar]) ∧
    (∀ (net : Net) (keys : Keys) (a : Article) (doi s : String),
      is_thin_excerpt a.excerpt = true → extract_doi a.url = some doi →
      strTruthy doi = true → net.ss doi = HttpResult.ok 200 (some s) → s.length = 300 →
      (enrichArticle net keys a).1.abstract_source = some "semantic_scholar" ∧
      (enrichArticle net keys a).2 = [Ev.call Src.semantic_scholar, Ev.sleep]) := by
  refine ⟨?_, ?_, ?_⟩
  · intro net keys doi url
    by_cases hA : optTruthy (fetch_abstract_semantic_scholar net doi keys.ss2) = true
    · have hc : abstract_cascade net keys doi url =
          (fetch_abstract_semantic_scholar net doi keys.ss2, "semantic_scholar",
           [Ev.call Src.semantic_scholar]) := by
        simp [abstract_cascade, hA]
      rw [hc]
      refine ⟨Or.inl rfl, ?_, ?_, ?_⟩ <;> simp [hA]
    · have hA2 : optTruthy (fetch_abstract_semantic_scholar net doi keys.ss2) = false := by
        simpa using hA
      by_cases hB : optTruthy (fetch_abstract_openalex net doi keys.openalex) = true
      · have hc : abstract_cascade net keys doi url =
            (fetch_abstract_openalex net doi keys.openalex, "openalex",
             [Ev.call Src.semantic_scholar, Ev.call Src.openalex]) := by
          simp [abstract_cascade, hA2, hB]
        rw [hc]
        refine ⟨Or.inr (Or.inl rfl), ?_, ?_, ?_⟩ <;> simp [hA2, hB]
      · have hB2 : optTruthy (fetch_abstract_openalex net doi keys.openalex) = false := by
          simpa using hB
        by_cases hC : optTruthy (fetch_abstract_europepmc net doi) = true
        · have hc : abstract_cascade net keys doi url =
              (fetch_abstract_europepmc net doi, "europepmc",
               [Ev.call Src.semantic_scholar, Ev.call Src.openalex,
                Ev.call Src.europepmc]) := by
            simp [abstract_cascade, hA2, hB2, hC]
          rw [hc]
          refine ⟨Or.inr (Or.inr (Or.inl rfl)), ?_, ?_, ?_⟩ <;> simp [hA2, hB2, hC]
        · have hC2 : optTruthy (fetch_abstract_europepmc net doi) = false := by
            simpa using hC
          have hc : abstract_cascade net keys doi url =
              (net.scrape url, "web_scrape",
               [Ev.call Src.semantic_scholar, Ev.call Src.openalex, Ev.call Src.europepmc,
                Ev.call Src.web_scrape]) := by
            simp [abstract_cascade, hA2, hB2, hC2]
          rw [hc]
          refine ⟨Or.inr (Or.inr (Or.inr rfl)), ?_, ?_, ?_⟩ <;> simp [hA2, hB2, hC2]
  · intro net keys doi url s hss hlen
    have h50 : 50 < s.data.length := by
      have h3 : s.data.length = 300 := hlen
      omega
    rw [@cascade_ss_hit net keys doi url s hss h50]
    exact ⟨rfl, rfl, rfl⟩
  · intro net keys a doi s hthin hdoi hdtr hss hlen
    have h50 : 50 < s.data.length := by
      have h3 : s.data.length = 300 := hlen
      omega
    have hdtr2 : optTruthy (some doi) = true := hdtr
    have hres : resolve_doi net keys a.url a.title = (some doi, []) := by
      unfold resolve_doi
      rw [hdoi, if_pos hdtr2]
    have hcas := @cascade_ss_hit net keys doi a.url s hss h50
    have htr : optTruthy (some s) = true := by
      cases hd : s.data with
      | nil =>
        rw [hd] at h50
        simp at h50
      | cons c cs => simp [optTruthy, hd]
    constructor
    · rw [enrichArticle_thin_eq net keys hthin]
      have hatt : attempt net keys a.url a.title = some (s, "semantic_scholar") := by
        unfold attempt
        rw [hres]
        simp [hcas, htr, hdtr2]
      rw [hatt]
      rfl
    · have e1 : (enrichArticle net keys a).2 = (enrichThin net keys (clearIfRetry a)).2 := by
        unfold enrichArticle
        rw [if_pos hthin]
      rw [e1]
      simp only [enrichThin]
      rw [clearIfRetry_url, clearIfRetry_title, hres]
      simp [hcas, htr, hdtr2]

set_option maxRecDepth 8000 in
/-- Witness for C3 at a concrete oracle in which Semantic Scholar holds a
300-character abstract for the DOI embedded in the stub's URL. -/
theorem C3_cascade_short_circuit_witness :
    (enrichArticle netSS keys0 artDoi).1.abstract_source = some "semantic_scholar" ∧
    (enrichArticle netSS keys0 artDoi).2 = [Ev.call Src.semantic_scholar, Ev.sleep] :=
  C3_cascade_short_circuit.2.2 netSS keys0 artDoi "10.1016/j.jhazmat.2026.141323" abstract300
    (by decide) (by decide) (by decide) rfl (by decide)

set_option maxRecDepth 8000 in
/-- C2 (amended): in the spec's end-to-end scenario the output stub
carries `abstract_source = "openalex"` and the 400-character OpenAlex
abstract as its excerpt and is absent from the manifest, but the resolved
DOI is used only transiently: no identifier is stored on the stub (its
`doi` key stays empty). -/
theorem C2_end_to_end :
    (enrichArticle netC2 keys0 stubC2).1.abstract_source = some "openalex" ∧
    (enrichArticle netC2 keys0 stubC2).1.excerpt = abstract400 ∧
    abstract400.length = 400 ∧
    missing_list [(enrichArticle netC2 keys0 stubC2).1] = [] ∧
    (enrichArticle netC2 keys0 stubC2).1.doi = "" := by
  decide

set_option maxRecDepth 8000 in
/-- C2 counterexample: in the very scenario of the claim, the output stub
does not have identifier `10.9999/abc` — the pipeline never stores a
resolved DOI on the stub. -/
theorem C2_counterexample :
    (enrichArticle netC2 keys0 stubC2).1.abstract_source = some "openalex" ∧
    (enrichArticle netC2 keys0 stubC2).1.excerpt.length = 400 ∧
    ¬ (enrichArticle netC2 keys0 stubC2).1.doi = "10.9999/abc" := by
  decide

/-- C6: the manifest produced after a run lists exactly the processed
stubs whose excerpt is still thin (in archive order, projected by
`manifestEntry`); the manifest file state never depends on the previous
run's manifest (full replacement); the files are deleted (state `none`)
precisely when no stub is thin; and an immediate re-run of the pipeline
over the unchanged output archive yields an identical manifest. -/
theorem C6_manifest :
    (∀ (net : Net) (keys : Keys) (arts : List Article),
      (enrich_abstracts net keys arts).2.1 =
        ((enrich_abstracts net keys arts).1.filter
          (fun a => is_thin_excerpt a.excerpt)).map manifestEntry) ∧
    (∀ (prev1 prev2 : Option (List ManEntry)) (net : Net) (keys : Keys)
        (arts : List Article),
      manifest_files_after prev1 net keys arts = manifest_files_after prev2 net keys arts) ∧
    (∀ (prev : Option (List ManEntry)) (net : Net) (keys : Keys) (arts : List Article),
      (manifest_files_after prev net keys arts = none ↔
        ∀ a ∈ (enrich_abstracts net keys arts).1, is_thin_excerpt a.excerpt = false)) ∧
    (∀ (prev : Option (List ManEntry)) (net : Net) (keys : Keys) (arts : List Article),
      (enrich_abstracts net keys arts).2.1 ≠ [] →
      manifest_files_after prev net keys arts =
        some ((enrich_abstracts net keys arts).2.1)) ∧
    (∀ (net : Net) (keys : Keys) (arts : List Article),
      (enrich_abstracts net keys (enrich_abstracts net keys arts).1).2.1 =
        (enrich_abstracts net keys arts).2.1) := by
  have hchar : ∀ (net : Net) (keys : Keys) (arts : List Article),
      (enrich_abstracts net keys arts).2.1 =
        ((enrich_abstracts net keys arts).1.filter
          (fun a => is_thin_excerpt a.excerpt)).map manifestEntry :=
    fun net keys arts => missing_list_eq (arts.map (fun a => (enrichArticle net keys a).1))
  refine ⟨hchar, ?_, ?_, ?_, ?_⟩
  · intro prev1 prev2 net keys arts
    rfl
  · intro prev net keys arts
    unfold manifest_files_after
    constructor
    · intro h
      by_cases hm : (enrich_abstracts net keys arts).2.1 = []
      · intro a ha
        rw [hchar net keys arts] at hm
        have hfil := List.map_eq_nil_iff.mp hm
        have hext := List.filter_eq_nil_iff.mp hfil a ha
        simpa using hext
      · rw [if_neg hm] at h
        exact absurd h (by simp)
    · intro hall
      have hm : (enrich_abstracts net keys arts).2.1 = [] := by
        rw [hchar net keys arts, List.map_eq_nil_iff, List.filter_eq_nil_iff]
        intro a ha
        simp [hall a ha]
      rw [if_pos hm]
  · intro prev net keys arts h
    unfold manifest_files_after
    rw [if_neg h]
  · intro net keys arts
    exact congrArg missing_list (enrich_abstracts_idem net keys arts)

set_option maxRecDepth 8000 in
/-- Witness for C6 on a concrete archive: the previous manifest state is
irrelevant, and the deletion criterion matches thinness. -/
theorem C6_manifest_witness :
    manifest_files_after (some [manifestEntry freshThin]) netFail keys0 [artRetry] =
      manifest_files_after none netFail keys0 [artRetry] ∧
    manifest_files_after none netFail keys0 [artRetry] =
      some ((enrich_abstracts netFail keys0 [artRetry]).2.1) :=
  ⟨C6_manifest.2.1 (some [manifestEntry freshThin]) none netFail keys0 [artRetry],
   C6_manifest.2.2.2.1 none netFail keys0 [artRetry] (by decide)⟩

/-- C9: every external-call failure is absorbed locally — the fetchers
and resolvers are total and return `none` on a raised exception, a
non-success status, or an empty/invalid payload; a missing (or falsy)
Elsevier credential skips that step without any call; a missing or
unparseable archive file degrades to the empty archive. -/
theorem C9_soft_failures :
    (∀ (net : Net) (doi : String) (k : Option String),
      net.ss doi = HttpResult.exn → fetch_abstract_semantic_scholar net doi k = none) ∧
    (∀ (net : Net) (doi : String) (k : Option String) (st : Nat) (p : Option String),
      st ≠ 200 → net.ss doi = HttpResult.ok st p →
      fetch_abstract_semantic_scholar net doi k = none) ∧
    (∀ (net : Net) (doi : String) (k : Option String),
      net.ss doi = HttpResult.ok 200 none →
      fetch_abstract_semantic_scholar net doi k = none) ∧
    (∀ (net : Net) (doi : String) (k : Option String),
      net.oa doi = HttpResult.exn → fetch_abstract_openalex net doi k = none) ∧
    (∀ (net : Net) (doi : String) (k : Option String) (st : Nat)
        (p : Option (List (String × List Nat))),
      st ≠ 200 → net.oa doi = HttpResult.ok st p →
      fetch_abstract_openalex net doi k = none) ∧
    (∀ (net : Net) (doi : String) (k : Option String),
      net.oa doi = HttpResult.ok 200 none → fetch_abstract_openalex net doi k = none) ∧
    (∀ (net : Net) (doi : String),
      net.epmc doi = HttpResult.exn → fetch_abstract_europepmc net doi = none) ∧
    (∀ (net : Net) (doi : String) (st : Nat) (p : List String),
      st ≠ 200 → net.epmc doi = HttpResult.ok st p →
      fetch_abstract_europepmc net doi = none) ∧
    (∀ (net : Net) (doi : String),
      net.epmc doi = HttpResult.ok 200 [] → fetch_abstract_europepmc net doi = none) ∧
    (∀ (net : Net) (title : String),
      net.crossref title = HttpResult.exn → resolve_title_to_doi net title = none) ∧
    (∀ (net : Net) (title : String) (st : Nat) (p : List CrItem),
      st ≠ 200 → net.crossref title = HttpResult.ok st p →
      resolve_title_to_doi net title = none) ∧
    (∀ (net : Net) (pii : String), resolve_pii_to_doi net pii none = none) ∧
    (∀ (net : Net) (pii : String), resolve_pii_to_doi net pii (some "") = none) ∧
    loadArchive ArchiveFile.absent = [] ∧ loadArchive ArchiveFile.corrupt = [] := by
  refine ⟨?_, ?_, ?_, ?_, ?_, ?_, ?_, ?_, ?_, ?_, ?_, ?_, ?_, rfl, rfl⟩
  · intro net doi k h
    unfold fetch_abstract_semantic_scholar
    rw [h]
  · intro net doi k st p hst h
    unfold fetch_abstract_semantic_scholar
    rw [h]
    simp [hst]
  · intro net doi k h
    unfold fetch_abstract_semantic_scholar
    rw [h]
    simp
  · intro net doi k h
    unfold fetch_abstract_openalex
    rw [h]
  · intro net doi k st p hst h
    unfold fetch_abstract_openalex
    rw [h]
    simp [hst]
  · intro net doi k h
    unfold fetch_abstract_openalex
    rw [h]
    simp
  · intro net doi h
    unfold fetch_abstract_europepmc
    rw [h]
  · intro net doi st p hst h
    unfold fetch_abstract_europepmc
    rw [h]
    simp [hst]
  · intro net doi h
    unfold fetch_abstract_europepmc
    rw [h]
    simp
  · intro net title h
    unfold resolve_title_to_doi
    rw [h]
  · intro net title st p hst h
    unfold resolve_title_to_doi
    rw [h]
    simp [hst]
  · intro net pii
    rfl
  · intro net pii
    rfl

/-- Witness for C9 on concrete failing oracles. -/
theorem C9_soft_failures_witness :
    fetch_abstract_semantic_scholar netFail "10.1/x" none = none ∧
    fetch_abstract_semantic_scholar netBad "10.1/x" none = none ∧
    fetch_abstract_openalex netFail "10.1/x" none = none ∧
    fetch_abstract_europepmc netBad "10.1/x" = none ∧
    resolve_title_to_doi netFail "Some Title" = none ∧
    resolve_pii_to_doi netFail "S0123" none = none ∧
    loadArchive ArchiveFile.absent = [] := by
  obtain ⟨h1, h2, h3, h4, h5, h6, h7, h8, h9, h10, h11, h12, h13, h14, h15⟩ :=
    C9_soft_failures
  exact ⟨h1 netFail "10.1/x" none rfl, h2 netBad "10.1/x" none 500 none (by decide) rfl,
    h4 netFail "10.1/x" none rfl, h8 netBad "10.1/x" 500 [] (by decide) rfl,
    h10 netFail "Some Title" rfl, h12 netFail "S0123", h14⟩

/-- C10: the enrichment pass either leaves a stub's excerpt unchanged or
assigns one of at most 2000 characters (the `[:2000]` truncation at both
assignment sites, and the blanking of a re-queued stub's excerpt). -/
theorem C10_excerpt_bound :
    ∀ (net : Net) (keys : Keys) (a : Article),
      (enrichArticle net keys a).1.excerpt = a.excerpt ∨
      (enrichArticle net keys a).1.excerpt.length ≤ 2000 := by
  intro net keys a
  by_cases h : is_thin_excerpt a.excerpt = true
  · rw [enrichArticle_thin_eq net keys h]
    cases ht : attempt net keys a.url a.title with
    | none =>
      simp only [applyAttempt]
      unfold clearIfRetry
      split_ifs
      · right
        show (("" : String)).length ≤ 2000
        decide
      · left
        rfl
    | some ts =>
      obtain ⟨x, s⟩ := ts
      right
      simp only [applyAttempt]
      show (pyTake x 2000).length ≤ 2000
      show (x.data.take 2000).length ≤ 2000
      rw [List.length_take]
      exact min_le_left _ _
  · rw [enrichArticle_notthin_eq net keys (by simpa using h)]
    left
    rfl
